import Mathlib

/-!
Shallow embedding of the fee-market arithmetic core of `x/feemarket/keeper/eip1559.go`
(functions `CalculateBaseFee` and `CalculateBlockGasWanted` of the keeper), together
with the fragment of the `cosmossdk.io/math` decimal library (`LegacyDec`, 18 fixed
decimal places over a big integer) that those two functions use.

Machine integers are modelled as `Nat`/`Int` with explicit range checks where the Go
code performs them; `big.Int` quotients (`Quo`, toward zero) are `Int.tdiv`.
-/

namespace FeeMarket

/-- The fixed precision of `LegacyDec`: values are stored as `i / 10^18`. -/
def PREC : ℤ := 10 ^ 18

/-- Rounding used by `LegacyDec.Mul` (`chopPrecisionAndRound` in `cosmossdk.io/math`):
strip 18 decimal places, rounding half away from zero (the Go code removes the sign,
rounds half up on the absolute value, and restores the sign). -/
def chopPrecisionAndRound (x : ℤ) : ℤ :=
  if x < 0 then
    -(let q := Int.tdiv (-x) PREC
      let r := Int.tmod (-x) PREC
      if r = 0 then q else if r < 5 * 10 ^ 17 then q else q + 1)
  else
    let q := Int.tdiv x PREC
    let r := Int.tmod x PREC
    if r = 0 then q else if r < 5 * 10 ^ 17 then q else q + 1

/-- `sdkmath.LegacyDec`: a fixed-point decimal, stored as the integer `i`,
denoting the rational `i / 10^18`. The Go zero value (`IsNil`) is modelled
separately as `Option LegacyDec := none` at the use sites. -/
structure LegacyDec where
  i : ℤ
deriving DecidableEq, Repr

/-- `LegacyNewDec`: the decimal with integral value `n`. -/
def LegacyNewDec (n : ℤ) : LegacyDec := ⟨n * PREC⟩

/-- `LegacyZeroDec()`. -/
def LegacyZeroDec : LegacyDec := ⟨0⟩

/-- `LegacyOneDec()`. -/
def LegacyOneDec : LegacyDec := ⟨PREC⟩

/-- `LegacyDec.MulInt`: exact multiplication by an integer. -/
def LegacyDec.mulInt (d : LegacyDec) (n : ℤ) : LegacyDec := ⟨d.i * n⟩

/-- `LegacyDec.QuoInt`: division by an integer; `big.Int.Quo` truncates toward zero. -/
def LegacyDec.quoInt (d : LegacyDec) (n : ℤ) : LegacyDec := ⟨Int.tdiv d.i n⟩

/-- `LegacyDec.Mul`: multiply two decimals, rounding the result half away from zero
back to 18 decimal places. -/
def LegacyDec.mul (d1 d2 : LegacyDec) : LegacyDec := ⟨chopPrecisionAndRound (d1.i * d2.i)⟩

/-- `LegacyDec.Add`: exact addition. -/
def LegacyDec.add (d1 d2 : LegacyDec) : LegacyDec := ⟨d1.i + d2.i⟩

/-- `LegacyDec.Sub`: exact subtraction. -/
def LegacyDec.sub (d1 d2 : LegacyDec) : LegacyDec := ⟨d1.i - d2.i⟩

/-- `LegacyDec.TruncateInt`: chop the fractional part toward zero, yielding an integer. -/
def LegacyDec.truncateInt (d : LegacyDec) : ℤ := Int.tdiv d.i PREC

/-- `sdkmath.LegacyMaxDec`: returns the first argument if it is strictly greater. -/
def LegacyMaxDec (d1 d2 : LegacyDec) : LegacyDec := if d2.i < d1.i then d1 else d2

/-- `sdkmath.Int.IsInt64`: the value fits in a signed 64-bit integer. -/
def intIsInt64 (n : ℤ) : Bool := decide (-(2 ^ 63) ≤ n ∧ n < 2 ^ 63)

/-- `sdkmath.Int.IsUint64`: the value fits in an unsigned 64-bit integer. -/
def intIsUint64 (n : ℤ) : Bool := decide (0 ≤ n ∧ n < 2 ^ 64)

/-- The fee-market `Params` fields read by the two calculator functions.
`baseFee = none` models a nil (`IsNil`) `LegacyDec`. `elasticityMultiplier` and
`baseFeeChangeDenominator` are `uint32` in Go, modelled as `ℕ`. -/
structure Params where
  noBaseFee : Bool
  baseFee : Option LegacyDec
  minGasPrice : LegacyDec
  minGasMultiplier : LegacyDec
  elasticityMultiplier : ℕ
  baseFeeChangeDenominator : ℕ
  enableHeight : ℤ
deriving DecidableEq, Repr

/-- Modelled from the spec: `Params.IsBaseFeeEnabled` lives in
`x/feemarket/types/params.go`, which is not among the given source files. Per the
spec the fee market is disabled iff `noBaseFee == true` or `blockHeight < enableHeight`. -/
def Params.isBaseFeeEnabled (p : Params) (height : ℤ) : Bool :=
  !p.noBaseFee && decide (p.enableHeight ≤ height)

/-- The block-scoped inputs of the two calculator functions, read through the
context and keeper in Go: the consensus max block gas (`none` models
`consParams.Block == nil`), the block gas meter (`none` models a nil meter,
`some g` a meter whose `GasConsumedToLimit()` returns `g`), the transient
gas-wanted accumulator, and the persisted block-gas-wanted value before the call. -/
structure CalcInput where
  params : Params
  blockHeight : ℤ
  consMaxGas : Option ℤ
  blockGasMeter : Option ℕ
  transientGasWanted : ℕ
  blockGasWanted : ℕ
deriving DecidableEq, Repr

/-- The error cases of `CalculateBlockGasWanted`, in source order. -/
inductive GasWantedError where
  | gasMeterMissing
  | gasWantedOverflow
  | gasUsedOverflow
deriving DecidableEq, Repr

/-- The outcome of `CalculateBlockGasWanted`: the Go pair `(uint64, error)` plus the
persisted block-gas-wanted value after the call (`SetBlockGasWanted` is a state write). -/
structure GasWantedResult where
  gasWanted : ℕ
  err : Option GasWantedError
  blockGasWantedAfter : ℕ
deriving DecidableEq, Repr

/-- `Keeper.CalculateBlockGasWanted`. Mirrors `eip1559.go` lines 103-145: nil-meter
check, signed-64-bit overflow checks on the transient gas wanted and the metered
gas used, then `max(gasWanted * MinGasMultiplier, gasUsed)` truncated to an
unsigned integer, which is both returned and persisted. `Uint64()` is modelled as
`Int.toNat` (exact whenever the value fits in 64 bits, which the claims assume). -/
def CalculateBlockGasWanted (inp : CalcInput) : GasWantedResult :=
  match inp.blockGasMeter with
  | none => ⟨0, some .gasMeterMissing, inp.blockGasWanted⟩
  | some consumedToLimit =>
    let gasWanted : ℤ := (inp.transientGasWanted : ℤ)
    let gasUsed : ℤ := (consumedToLimit : ℤ)
    if intIsInt64 gasWanted = false then ⟨0, some .gasWantedOverflow, inp.blockGasWanted⟩
    else if intIsInt64 gasUsed = false then ⟨0, some .gasUsedOverflow, inp.blockGasWanted⟩
    else
      let limitedGasWanted := (LegacyNewDec gasWanted).mul inp.params.minGasMultiplier
      let updatedGasWanted :=
        ((LegacyMaxDec limitedGasWanted (LegacyNewDec gasUsed)).truncateInt).toNat
      ⟨updatedGasWanted, none, updatedGasWanted⟩

/-- The `gasLimit` computed in `CalculateBaseFee`: `MaxUint64` unless the consensus
block parameters are present with `MaxGas > -1`. -/
def gasLimitOf (inp : CalcInput) : ℤ :=
  match inp.consMaxGas with
  | some maxGas => if maxGas > -1 then maxGas else 2 ^ 64 - 1
  | none => 2 ^ 64 - 1

/-- `parentGasTargetInt = gasLimit.Quo(elasticityMultiplier)` (toward zero). -/
def parentGasTargetIntOf (inp : CalcInput) : ℤ :=
  Int.tdiv (gasLimitOf inp) ((inp.params.elasticityMultiplier : ℤ))

/-- `Keeper.CalculateBaseFee`. Mirrors `eip1559.go` lines 18-99. The nil `LegacyDec`
returned on the disabled/degenerate paths is modelled as `none`. -/
def CalculateBaseFee (inp : CalcInput) : Option LegacyDec :=
  let params := inp.params
  if params.isBaseFeeEnabled inp.blockHeight = false then none
  else if inp.blockHeight = params.enableHeight then params.baseFee
  else
    match params.baseFee with
    | none => none
    | some parentBaseFee =>
      let gw := CalculateBlockGasWanted inp
      match gw.err with
      | some _ => none
      | none =>
        let parentGasUsed := gw.gasWanted
        let parentGasTargetInt := parentGasTargetIntOf inp
        if intIsUint64 parentGasTargetInt = false then none
        else
          let parentGasTarget : ℕ := parentGasTargetInt.toNat
          let baseFeeChangeDenominator : ℤ := (params.baseFeeChangeDenominator : ℤ)
          if parentGasUsed = parentGasTarget then some parentBaseFee
          else if parentGasTargetInt = 0 then some LegacyZeroDec
          else if parentGasUsed > parentGasTarget then
            let gasUsedDelta : ℤ := ((parentGasUsed : ℤ) - (parentGasTarget : ℤ))
            let x := parentBaseFee.mulInt gasUsedDelta
            let y := x.quoInt parentGasTargetInt
            let baseFeeDelta := LegacyMaxDec (y.quoInt baseFeeChangeDenominator) LegacyOneDec
            some (parentBaseFee.add baseFeeDelta)
          else
            let gasUsedDelta : ℤ := ((parentGasTarget : ℤ) - (parentGasUsed : ℤ))
            let x := parentBaseFee.mulInt gasUsedDelta
            let y := x.quoInt parentGasTargetInt
            let baseFeeDelta := y.quoInt baseFeeChangeDenominator
            some (LegacyMaxDec (parentBaseFee.sub baseFeeDelta) params.minGasPrice)

/-! ### Concrete inputs used by examples, witnesses and counterexamples -/

/-- The decimal one half, the default `MinGasMultiplier` used in the spec's examples. -/
def halfDec : LegacyDec := ⟨5 * 10 ^ 17⟩

/-- Parameters for the concrete examples: fee market enabled from height 0, base fee
875000000 (the chain default exercised by the repository's tests), min gas price 0,
multiplier 1/2, elasticity 2, change denominator 8. -/
def exampleParams : Params :=
  { noBaseFee := false
    baseFee := some (LegacyNewDec 875000000)
    minGasPrice := LegacyZeroDec
    minGasMultiplier := halfDec
    elasticityMultiplier := 2
    baseFeeChangeDenominator := 8
    enableHeight := 0 }

/-- Example block input at height 1 with consensus `MaxGas = 100` (so gas target 50),
an attached meter having consumed `cons`, and transient accumulator `acc`. -/
def exampleInput (acc cons : ℕ) : CalcInput :=
  { params := exampleParams
    blockHeight := 1
    consMaxGas := some 100
    blockGasMeter := some cons
    transientGasWanted := acc
    blockGasWanted := 0 }

/-- Input with a degenerate (zero) gas target: consensus `MaxGas = 0` with
elasticity 1, fee market enabled from height 0 at height 1, parent base fee 1,
multiplier 1, and a block whose meter consumed `n` with accumulator `n`. -/
def zeroTargetInput (n : ℕ) : CalcInput :=
  { params :=
      { noBaseFee := false
        baseFee := some LegacyOneDec
        minGasPrice := LegacyZeroDec
        minGasMultiplier := LegacyOneDec
        elasticityMultiplier := 1
        baseFeeChangeDenominator := 8
        enableHeight := 0 }
    blockHeight := 1
    consMaxGas := some 0
    blockGasMeter := some n
    transientGasWanted := n
    blockGasWanted := 0 }

/-- Example input with the fee market switched off via `NoBaseFee`. -/
def disabledInput : CalcInput :=
  { params :=
      { noBaseFee := true
        baseFee := some (LegacyNewDec 875000000)
        minGasPrice := LegacyZeroDec
        minGasMultiplier := halfDec
        elasticityMultiplier := 2
        baseFeeChangeDenominator := 8
        enableHeight := 0 }
    blockHeight := 1
    consMaxGas := some 100
    blockGasMeter := some 50
    transientGasWanted := 50
    blockGasWanted := 0 }

/-- Example input with no block gas meter attached and a previously persisted
block-gas-wanted value of 7. -/
def nilMeterInput : CalcInput :=
  { params := exampleParams
    blockHeight := 1
    consMaxGas := some 100
    blockGasMeter := none
    transientGasWanted := 50
    blockGasWanted := 7 }

/-! ### Arithmetic helper lemmas -/

/-- Truncating division toward zero is monotone in the dividend for a nonnegative divisor. -/
theorem tdiv_le_tdiv_of_le {a b c : ℤ} (hc : 0 ≤ c) (h : a ≤ b) :
    Int.tdiv a c ≤ Int.tdiv b c := by
  rcases hc.eq_or_lt with hc0 | hcpos
  · rw [← hc0, Int.tdiv_zero, Int.tdiv_zero]
  · rcases le_or_lt 0 a with ha | ha
    · rw [Int.tdiv_eq_ediv ha hc, Int.tdiv_eq_ediv (ha.trans h) hc]
      exact Int.ediv_le_ediv hcpos h
    · rcases le_or_lt 0 b with hb | hb
      · have h1 : Int.tdiv (-a) c = -Int.tdiv a c := Int.neg_tdiv a c
        have h2 : 0 ≤ Int.tdiv (-a) c := Int.tdiv_nonneg (by omega) hc
        have h3 : 0 ≤ Int.tdiv b c := Int.tdiv_nonneg hb hc
        omega
      · have h1 : Int.tdiv (-a) c = -Int.tdiv a c := Int.neg_tdiv a c
        have h2 : Int.tdiv (-b) c = -Int.tdiv b c := Int.neg_tdiv b c
        have h3 : Int.tdiv (-b) c ≤ Int.tdiv (-a) c := by
          rw [Int.tdiv_eq_ediv (by omega) hc, Int.tdiv_eq_ediv (by omega) hc]
          exact Int.ediv_le_ediv hcpos (by omega)
        omega

/-- Truncating division distributes over `max` for a nonnegative divisor. -/
theorem tdiv_max (a b : ℤ) {c : ℤ} (hc : 0 ≤ c) :
    Int.tdiv (max a b) c = max (Int.tdiv a c) (Int.tdiv b c) := by
  rcases max_cases a b with ⟨hm, hab⟩ | ⟨hm, hab⟩
  · rw [hm]
    exact (max_eq_left (tdiv_le_tdiv_of_le hc hab)).symm
  · rw [hm]
    exact (max_eq_right (tdiv_le_tdiv_of_le hc hab.le)).symm

/-- `Int.toNat` distributes over `max`. -/
theorem toNat_max (a b : ℤ) : (max a b).toNat = max a.toNat b.toNat := by
  rcases max_cases a b with ⟨hm, hab⟩ | ⟨hm, hab⟩
  · rw [hm]
    exact (max_eq_left (Int.toNat_le_toNat hab)).symm
  · rw [hm]
    exact (max_eq_right (Int.toNat_le_toNat hab.le)).symm

/-- Chopping 18 decimal places off an exact multiple of `10^18` loses nothing. -/
theorem chopPrecisionAndRound_mul_PREC (k : ℤ) : chopPrecisionAndRound (k * PREC) = k := by
  have hP : PREC ≠ 0 := by decide
  unfold chopPrecisionAndRound
  rcases lt_or_le (k * PREC) 0 with hneg | hpos
  · rw [if_pos hneg]
    have h1 : -(k * PREC) = (-k) * PREC := by ring
    rw [h1, Int.mul_tdiv_cancel _ hP, Int.mul_tmod_left, if_pos rfl]
    ring
  · rw [if_neg (not_lt.mpr hpos), Int.mul_tdiv_cancel _ hP, Int.mul_tmod_left, if_pos rfl]

/-- The raw value of `LegacyMaxDec` is the max of the raw values. -/
theorem LegacyMaxDec_i (a b : LegacyDec) : (LegacyMaxDec a b).i = max a.i b.i := by
  unfold LegacyMaxDec
  rcases lt_or_le b.i a.i with h | h
  · rw [if_pos h, max_eq_left h.le]
  · rw [if_neg (not_lt.mpr h), max_eq_right h]

/-- Multiplying an integral `LegacyDec` by a decimal is exact: no rounding occurs. -/
theorem LegacyNewDec_mul (n : ℤ) (d : LegacyDec) :
    (LegacyNewDec n).mul d = ⟨n * d.i⟩ := by
  unfold LegacyNewDec LegacyDec.mul
  have h : n * PREC * d.i = n * d.i * PREC := by ring
  rw [h, chopPrecisionAndRound_mul_PREC]

/-- Success characterisation of `CalculateBlockGasWanted`: with a meter attached and
both figures within signed 64-bit range, the call succeeds and both the returned and
the persisted value equal `max(truncate(accumulator * multiplier), consumed)`. -/
theorem CalculateBlockGasWanted_ok (inp : CalcInput) (cons : ℕ)
    (hm : inp.blockGasMeter = some cons)
    (hw : (inp.transientGasWanted : ℤ) < 2 ^ 63)
    (hc : (cons : ℤ) < 2 ^ 63) :
    CalculateBlockGasWanted inp =
      { gasWanted := max
          (Int.toNat (Int.tdiv ((inp.transientGasWanted : ℤ) * inp.params.minGasMultiplier.i) PREC))
          cons,
        err := none,
        blockGasWantedAfter := max
          (Int.toNat (Int.tdiv ((inp.transientGasWanted : ℤ) * inp.params.minGasMultiplier.i) PREC))
          cons } := by
  have h1 : intIsInt64 ((inp.transientGasWanted : ℕ) : ℤ) = true := by
    unfold intIsInt64
    simp only [decide_eq_true_eq]
    omega
  have h2 : intIsInt64 ((cons : ℕ) : ℤ) = true := by
    unfold intIsInt64
    simp only [decide_eq_true_eq]
    omega
  have hPnn : (0 : ℤ) ≤ PREC := by decide
  have hPne : PREC ≠ 0 := by decide
  simp only [CalculateBlockGasWanted, hm, h1, h2, Bool.true_eq_false, if_false, ite_false]
  rw [LegacyNewDec_mul]
  unfold LegacyDec.truncateInt LegacyNewDec
  rw [LegacyMaxDec_i]
  rw [tdiv_max _ _ hPnn, Int.mul_tdiv_cancel _ hPne, toNat_max, Int.toNat_natCast]

/-- Adding `max(q, 1)` to a decimal strictly increases its raw value. -/
theorem lt_add_max_one (pbf q : LegacyDec) :
    pbf.i < (pbf.add (LegacyMaxDec q LegacyOneDec)).i := by
  show pbf.i < pbf.i + (LegacyMaxDec q LegacyOneDec).i
  rw [LegacyMaxDec_i]
  have h1 : (0 : ℤ) < PREC := by decide
  have h2 : LegacyOneDec.i ≤ max q.i LegacyOneDec.i := le_max_right _ _
  have h3 : LegacyOneDec.i = PREC := rfl
  linarith

/-- When the raw quotient is nonpositive, the congestion floor takes over: the
`max` with one is exactly one. -/
theorem max_one_of_nonpos (q : LegacyDec) (h : q.i ≤ 0) :
    LegacyMaxDec q LegacyOneDec = LegacyOneDec := by
  have hn : ¬ (LegacyOneDec.i < q.i) := by
    have h1 : (0 : ℤ) < PREC := by decide
    have h3 : LegacyOneDec.i = PREC := rfl
    linarith
  unfold LegacyMaxDec
  exact if_neg hn

/-- A truncating quotient of a nonpositive dividend by a nonnegative divisor is
nonpositive. -/
theorem tdiv_nonpos_of_nonpos {a c : ℤ} (ha : a ≤ 0) (hc : 0 ≤ c) : Int.tdiv a c ≤ 0 := by
  have h := tdiv_le_tdiv_of_le hc ha
  rwa [Int.zero_tdiv] at h

/-! ### Branch characterisations of `CalculateBaseFee` -/

/-- The fee market is enabled when `noBaseFee` is off and the height has been reached. -/
theorem isBaseFeeEnabled_of {p : Params} {h : ℤ} (hnb : p.noBaseFee = false)
    (hh : p.enableHeight ≤ h) : p.isBaseFeeEnabled h = true := by
  unfold Params.isBaseFeeEnabled
  rw [hnb]
  simpa using hh

/-- Steady state, congested branch: with a parent base fee, a successful gas-wanted
reconciliation yielding `g`, and a positive gas target `t < g`, the result is
`parentBaseFee + max(parentBaseFee * (g - t) / t / denominator, 1)`. -/
theorem CalculateBaseFee_congested (inp : CalcInput) (pbf : LegacyDec) (t g : ℕ)
    (hnb : inp.params.noBaseFee = false)
    (hh : inp.params.enableHeight < inp.blockHeight)
    (hbf : inp.params.baseFee = some pbf)
    (herr : (CalculateBlockGasWanted inp).err = none)
    (hg : (CalculateBlockGasWanted inp).gasWanted = g)
    (ht : parentGasTargetIntOf inp = (t : ℤ))
    (ht64 : (t : ℤ) < 2 ^ 64)
    (htpos : 0 < t) (hgt : t < g) :
    CalculateBaseFee inp =
      some (pbf.add (LegacyMaxDec
        (((pbf.mulInt ((g : ℤ) - (t : ℤ))).quoInt (t : ℤ)).quoInt
          ((inp.params.baseFeeChangeDenominator : ℤ))) LegacyOneDec)) := by
  have hen : inp.params.isBaseFeeEnabled inp.blockHeight = true :=
    isBaseFeeEnabled_of hnb hh.le
  have hne : ¬ inp.blockHeight = inp.params.enableHeight := by omega
  have hu : intIsUint64 (parentGasTargetIntOf inp) = true := by
    rw [ht]
    unfold intIsUint64
    simp only [decide_eq_true_eq]
    exact ⟨Int.natCast_nonneg t, ht64⟩
  have hz : ¬ ((t : ℤ) = 0) := by omega
  have hne2 : ¬ (g = t) := hgt.ne'
  rw [ht] at hu
  simp only [CalculateBaseFee, hen, hne, hbf, herr, hg, ht, hu, hz, hne2,
    Bool.true_eq_false, if_false, ite_false, if_neg, Int.toNat_natCast, gt_iff_lt, hgt,
    if_true, ite_true]

/-! ### The claims -/

/-- Claim C8: whenever `noBaseFee` is set or the block height is below the enable
height, `CalculateBaseFee` returns the absent result, regardless of all other inputs. -/
theorem claim_C8 (inp : CalcInput)
    (h : inp.params.noBaseFee = true ∨ inp.blockHeight < inp.params.enableHeight) :
    CalculateBaseFee inp = none := by
  have hen : inp.params.isBaseFeeEnabled inp.blockHeight = false := by
    unfold Params.isBaseFeeEnabled
    rcases h with h | h
    · rw [h]
      rfl
    · have hn : ¬ (inp.params.enableHeight ≤ inp.blockHeight) := not_le.mpr h
      simp [hn]
  simp [CalculateBaseFee, hen]

/-- Witness for C8: the example input with `NoBaseFee` on yields the absent result. -/
theorem claim_C8_witness : CalculateBaseFee disabledInput = none :=
  claim_C8 disabledInput (Or.inl rfl)

/-- Claim C5: in the steady state with a parent base fee present, if the reconciled
gas wanted equals the parent gas target then `CalculateBaseFee` returns the parent
base fee exactly, regardless of `minGasPrice` and the other parameters. -/
theorem claim_C5 (inp : CalcInput) (pbf : LegacyDec) (t : ℕ)
    (hnb : inp.params.noBaseFee = false)
    (hh : inp.params.enableHeight < inp.blockHeight)
    (hbf : inp.params.baseFee = some pbf)
    (herr : (CalculateBlockGasWanted inp).err = none)
    (ht : parentGasTargetIntOf inp = (t : ℤ))
    (ht64 : (t : ℤ) < 2 ^ 64)
    (heq : (CalculateBlockGasWanted inp).gasWanted = t) :
    CalculateBaseFee inp = some pbf := by
  have hen : inp.params.isBaseFeeEnabled inp.blockHeight = true := isBaseFeeEnabled_of hnb hh.le
  have hne : ¬ inp.blockHeight = inp.params.enableHeight := by omega
  have hu : intIsUint64 ((t : ℤ)) = true := by
    unfold intIsUint64
    simp only [decide_eq_true_eq]
    exact ⟨Int.natCast_nonneg t, ht64⟩
  simp [CalculateBaseFee, hen, hne, hbf, herr, heq, ht, hu]

/-- Witness for C5: gas wanted 50 equals the target 50, so the example base fee is
returned unchanged. -/
theorem claim_C5_witness : CalculateBaseFee (exampleInput 50 50) = some (LegacyNewDec 875000000) :=
  claim_C5 (exampleInput 50 50) (LegacyNewDec 875000000) 50 rfl (by decide) rfl (by decide)
    (by decide) (by decide) (by decide)

/-- Claim C10: whenever `CalculateBlockGasWanted` returns an error, the returned
gas-wanted value is 0 and the persisted block-gas-wanted state is unchanged; the
state write happens exactly on the success path. -/
theorem claim_C10 (inp : CalcInput) :
    ((CalculateBlockGasWanted inp).err ≠ none →
      (CalculateBlockGasWanted inp).gasWanted = 0 ∧
      (CalculateBlockGasWanted inp).blockGasWantedAfter = inp.blockGasWanted) ∧
    ((CalculateBlockGasWanted inp).err = none →
      (CalculateBlockGasWanted inp).blockGasWantedAfter = (CalculateBlockGasWanted inp).gasWanted) := by
  unfold CalculateBlockGasWanted
  cases hm : inp.blockGasMeter with
  | none => simp
  | some cons =>
    by_cases h1 : intIsInt64 ((inp.transientGasWanted : ℤ)) = false
    · simp [h1]
    · by_cases h2 : intIsInt64 ((cons : ℤ)) = false
      · simp [h1, h2]
      · simp [h1, h2]

/-- Witness for C10: with a nil block gas meter the call errors, returns 0 and leaves
the stored block-gas-wanted value (7) untouched. -/
theorem claim_C10_witness :
    (CalculateBlockGasWanted nilMeterInput).gasWanted = 0 ∧
    (CalculateBlockGasWanted nilMeterInput).blockGasWantedAfter = nilMeterInput.blockGasWanted :=
  (claim_C10 nilMeterInput).1 (by decide)

/-- Claim C7: with a meter attached, if the accumulator or the capped consumed gas
exceeds the signed 64-bit range, `CalculateBlockGasWanted` returns one of the two
overflow errors together with the value 0 — never a silently wrapped number. -/
theorem claim_C7 (inp : CalcInput) (cons : ℕ)
    (hm : inp.blockGasMeter = some cons)
    (hover : 2 ^ 63 ≤ (inp.transientGasWanted : ℤ) ∨ 2 ^ 63 ≤ (cons : ℤ)) :
    ((CalculateBlockGasWanted inp).err = some GasWantedError.gasWantedOverflow ∨
     (CalculateBlockGasWanted inp).err = some GasWantedError.gasUsedOverflow) ∧
    (CalculateBlockGasWanted inp).gasWanted = 0 := by
  by_cases h1 : intIsInt64 ((inp.transientGasWanted : ℤ)) = false
  · constructor
    · left
      simp [CalculateBlockGasWanted, hm, h1]
    · simp [CalculateBlockGasWanted, hm, h1]
  · rw [Bool.not_eq_false] at h1
    have hw : (inp.transientGasWanted : ℤ) < 2 ^ 63 := by
      unfold intIsInt64 at h1
      simp only [decide_eq_true_eq] at h1
      exact h1.2
    have h2 : intIsInt64 ((cons : ℤ)) = false := by
      unfold intIsInt64
      simp only [decide_eq_false_iff_not]
      omega
    constructor
    · right
      simp [CalculateBlockGasWanted, hm, h1, h2]
    · simp [CalculateBlockGasWanted, hm, h1, h2]

/-- Witness for C7: the accumulator at the maximum unsigned 64-bit value makes the
calculator fail with an overflow error and value 0. -/
theorem claim_C7_witness :
    ((CalculateBlockGasWanted (exampleInput (2 ^ 64 - 1) 0)).err =
        some GasWantedError.gasWantedOverflow ∨
     (CalculateBlockGasWanted (exampleInput (2 ^ 64 - 1) 0)).err =
        some GasWantedError.gasUsedOverflow) ∧
    (CalculateBlockGasWanted (exampleInput (2 ^ 64 - 1) 0)).gasWanted = 0 :=
  claim_C7 (exampleInput (2 ^ 64 - 1) 0) 0 rfl (Or.inl (by decide))

/-- Claim C9: `CalculateBaseFee` is total (its return type carries no error), and in
the steady state every degenerate path — an error from the gas-wanted reconciliation,
an absent stored parent base fee, or a parent gas target not representable as an
unsigned 64-bit value — yields the absent result. -/
theorem claim_C9 (inp : CalcInput)
    (hnb : inp.params.noBaseFee = false)
    (hh : inp.params.enableHeight < inp.blockHeight)
    (hdeg : inp.params.baseFee = none ∨ (CalculateBlockGasWanted inp).err ≠ none ∨
            intIsUint64 (parentGasTargetIntOf inp) = false) :
    CalculateBaseFee inp = none := by
  have hen : inp.params.isBaseFeeEnabled inp.blockHeight = true := isBaseFeeEnabled_of hnb hh.le
  have hne : ¬ inp.blockHeight = inp.params.enableHeight := by omega
  rcases hdeg with h | h | h
  · simp [CalculateBaseFee, hen, hne, h]
  · cases hbf : inp.params.baseFee with
    | none => simp [CalculateBaseFee, hen, hne, hbf]
    | some pbf =>
      cases herr : (CalculateBlockGasWanted inp).err with
      | none => exact absurd herr h
      | some e => simp [CalculateBaseFee, hen, hne, hbf, herr]
  · cases hbf : inp.params.baseFee with
    | none => simp [CalculateBaseFee, hen, hne, hbf]
    | some pbf =>
      cases herr : (CalculateBlockGasWanted inp).err with
      | some e => simp [CalculateBaseFee, hen, hne, hbf, herr]
      | none => simp [CalculateBaseFee, hen, hne, hbf, herr, h]

/-- Witness for C9: the nil-meter input is in the steady state, its gas-wanted
reconciliation errors, and the base-fee calculation folds this into the absent result. -/
theorem claim_C9_witness : CalculateBaseFee nilMeterInput = none :=
  claim_C9 nilMeterInput rfl (by decide) (Or.inr (Or.inl (by decide)))

/-- Counterexample to C1 as stated: at a zero parent gas target with
`parentGasUsed == 0` (steady state, fee market enabled, parent base fee 1 present,
gas-wanted reconciliation succeeding with 0), `CalculateBaseFee` returns the parent
base fee — the equality branch fires before the zero-target branch — not a zero fee. -/
theorem claim_C1_counterexample :
    ((zeroTargetInput 0).params.noBaseFee = false ∧
     (zeroTargetInput 0).params.enableHeight < (zeroTargetInput 0).blockHeight ∧
     (zeroTargetInput 0).params.baseFee = some LegacyOneDec ∧
     (CalculateBlockGasWanted (zeroTargetInput 0)).err = none ∧
     (CalculateBlockGasWanted (zeroTargetInput 0)).gasWanted = 0 ∧
     parentGasTargetIntOf (zeroTargetInput 0) = 0) ∧
    CalculateBaseFee (zeroTargetInput 0) ≠ some LegacyZeroDec ∧
    CalculateBaseFee (zeroTargetInput 0) = some LegacyOneDec := by
  decide

/-- Claim C1 amended: in the steady state with a zero parent gas target, the result
is a zero fee whenever the reconciled gas wanted is nonzero; when it is zero, the
equality check precedes the zero-target check and the parent base fee is returned. -/
theorem claim_C1_amended (inp : CalcInput) (pbf : LegacyDec) (g : ℕ)
    (hnb : inp.params.noBaseFee = false)
    (hh : inp.params.enableHeight < inp.blockHeight)
    (hbf : inp.params.baseFee = some pbf)
    (herr : (CalculateBlockGasWanted inp).err = none)
    (hg : (CalculateBlockGasWanted inp).gasWanted = g)
    (ht0 : parentGasTargetIntOf inp = 0) :
    CalculateBaseFee inp = if g = 0 then some pbf else some LegacyZeroDec := by
  have hen : inp.params.isBaseFeeEnabled inp.blockHeight = true := isBaseFeeEnabled_of hnb hh.le
  have hne : ¬ inp.blockHeight = inp.params.enableHeight := by omega
  have hu : intIsUint64 ((0 : ℤ)) = true := by decide
  by_cases hg0 : g = 0
  · simp [CalculateBaseFee, hen, hne, hbf, herr, hg, ht0, hu, hg0]
  · simp [CalculateBaseFee, hen, hne, hbf, herr, hg, ht0, hu, hg0]

/-- Witness for the amended C1: at a zero target with reconciled gas wanted 5 the
result is the zero fee. -/
theorem claim_C1_amended_witness :
    CalculateBaseFee (zeroTargetInput 5) =
      if (5 : ℕ) = 0 then some LegacyOneDec else some LegacyZeroDec :=
  claim_C1_amended (zeroTargetInput 5) LegacyOneDec 5 rfl (by decide) rfl (by decide)
    (by decide) (by decide)

/-- Claim C2: with an attached meter and both figures in signed 64-bit range,
`CalculateBlockGasWanted` succeeds and returns
`max(truncate(accumulator * minGasMultiplier), consumedGas)` (the product is exact in
the 18-decimal representation, so rounding loses nothing); moreover the spec's three
smoothing examples hold with multiplier 1/2. -/
theorem claim_C2 (inp : CalcInput) (cons : ℕ)
    (hm : inp.blockGasMeter = some cons)
    (hw : (inp.transientGasWanted : ℤ) < 2 ^ 63)
    (hc : (cons : ℤ) < 2 ^ 63) :
    ((CalculateBlockGasWanted inp).err = none ∧
     (CalculateBlockGasWanted inp).gasWanted =
       max (Int.toNat
         (Int.tdiv ((inp.transientGasWanted : ℤ) * inp.params.minGasMultiplier.i) PREC)) cons) ∧
    (CalculateBlockGasWanted (exampleInput 5000000 1000000)).gasWanted = 2500000 ∧
    (CalculateBlockGasWanted (exampleInput 2000000 3000000)).gasWanted = 3000000 ∧
    (CalculateBlockGasWanted (exampleInput 2000000 2000000)).gasWanted = 2000000 := by
  refine ⟨?_, by decide, by decide, by decide⟩
  rw [CalculateBlockGasWanted_ok inp cons hm hw hc]
  exact ⟨rfl, rfl⟩

/-- Witness for C2: the accumulator 5000000 with multiplier 1/2 and consumed gas
1000000 yields 2500000, matching the general formula. -/
theorem claim_C2_witness :
    (((CalculateBlockGasWanted (exampleInput 5000000 1000000)).err = none ∧
      (CalculateBlockGasWanted (exampleInput 5000000 1000000)).gasWanted =
        max (Int.toNat
          (Int.tdiv (((exampleInput 5000000 1000000).transientGasWanted : ℤ) *
            (exampleInput 5000000 1000000).params.minGasMultiplier.i) PREC)) 1000000) ∧
     (CalculateBlockGasWanted (exampleInput 5000000 1000000)).gasWanted = 2500000 ∧
     (CalculateBlockGasWanted (exampleInput 2000000 3000000)).gasWanted = 3000000 ∧
     (CalculateBlockGasWanted (exampleInput 2000000 2000000)).gasWanted = 2000000) :=
  claim_C2 (exampleInput 5000000 1000000) 1000000 rfl (by decide) (by decide)

/-- Claim C3: steady-state congested branch. With parent base fee present and
`parentGasUsed > parentGasTarget > 0`, the result is
`parentBaseFee + max(parentBaseFee * (used - target) / target / denominator, 1)`;
the fee strictly increases, and when the raw quotient rounds to 0 the result exceeds
the parent base fee by exactly one unit. -/
theorem claim_C3 (inp : CalcInput) (pbf : LegacyDec) (t g : ℕ)
    (hnb : inp.params.noBaseFee = false)
    (hh : inp.params.enableHeight < inp.blockHeight)
    (hbf : inp.params.baseFee = some pbf)
    (herr : (CalculateBlockGasWanted inp).err = none)
    (hg : (CalculateBlockGasWanted inp).gasWanted = g)
    (ht : parentGasTargetIntOf inp = (t : ℤ))
    (ht64 : (t : ℤ) < 2 ^ 64)
    (htpos : 0 < t) (hgt : t < g) :
    CalculateBaseFee inp =
      some (pbf.add (LegacyMaxDec
        (((pbf.mulInt ((g : ℤ) - (t : ℤ))).quoInt (t : ℤ)).quoInt
          ((inp.params.baseFeeChangeDenominator : ℤ))) LegacyOneDec)) ∧
    pbf.i < (pbf.add (LegacyMaxDec
        (((pbf.mulInt ((g : ℤ) - (t : ℤ))).quoInt (t : ℤ)).quoInt
          ((inp.params.baseFeeChangeDenominator : ℤ))) LegacyOneDec)).i ∧
    ((((pbf.mulInt ((g : ℤ) - (t : ℤ))).quoInt (t : ℤ)).quoInt
          ((inp.params.baseFeeChangeDenominator : ℤ))).i = 0 →
      pbf.add (LegacyMaxDec
        (((pbf.mulInt ((g : ℤ) - (t : ℤ))).quoInt (t : ℤ)).quoInt
          ((inp.params.baseFeeChangeDenominator : ℤ))) LegacyOneDec) =
        pbf.add LegacyOneDec) := by
  refine ⟨CalculateBaseFee_congested inp pbf t g hnb hh hbf herr hg ht ht64 htpos hgt,
    lt_add_max_one pbf _, fun h0 => ?_⟩
  exact congrArg pbf.add (max_one_of_nonpos _ (le_of_eq h0))

/-- Witness for C3: gas wanted 100 against target 50 with base fee 875000000 and
denominator 8 raises the fee by `875000000 * 50 / 50 / 8 = 109375000`. -/
theorem claim_C3_witness :
    (CalculateBaseFee (exampleInput 100 100) =
      some ((LegacyNewDec 875000000).add (LegacyMaxDec
        ((((LegacyNewDec 875000000).mulInt ((100 : ℤ) - (50 : ℤ))).quoInt (50 : ℤ)).quoInt
          (((exampleInput 100 100).params.baseFeeChangeDenominator : ℤ))) LegacyOneDec)) ∧
     (LegacyNewDec 875000000).i < ((LegacyNewDec 875000000).add (LegacyMaxDec
        ((((LegacyNewDec 875000000).mulInt ((100 : ℤ) - (50 : ℤ))).quoInt (50 : ℤ)).quoInt
          (((exampleInput 100 100).params.baseFeeChangeDenominator : ℤ))) LegacyOneDec)).i ∧
     (((((LegacyNewDec 875000000).mulInt ((100 : ℤ) - (50 : ℤ))).quoInt (50 : ℤ)).quoInt
          (((exampleInput 100 100).params.baseFeeChangeDenominator : ℤ))).i = 0 →
      (LegacyNewDec 875000000).add (LegacyMaxDec
        ((((LegacyNewDec 875000000).mulInt ((100 : ℤ) - (50 : ℤ))).quoInt (50 : ℤ)).quoInt
          (((exampleInput 100 100).params.baseFeeChangeDenominator : ℤ))) LegacyOneDec) =
        (LegacyNewDec 875000000).add LegacyOneDec)) :=
  claim_C3 (exampleInput 100 100) (LegacyNewDec 875000000) 50 100 rfl (by decide) rfl
    (by decide) (by decide) (by decide) (by decide) (by decide) (by decide)

/-- Claim C4: steady-state slack branch. With parent base fee present and
`parentGasUsed < parentGasTarget`, the result is
`max(parentBaseFee - parentBaseFee * (target - used) / target / denominator, minGasPrice)`,
and in particular it is never below `minGasPrice`. -/
theorem claim_C4 (inp : CalcInput) (pbf : LegacyDec) (t g : ℕ)
    (hnb : inp.params.noBaseFee = false)
    (hh : inp.params.enableHeight < inp.blockHeight)
    (hbf : inp.params.baseFee = some pbf)
    (herr : (CalculateBlockGasWanted inp).err = none)
    (hg : (CalculateBlockGasWanted inp).gasWanted = g)
    (ht : parentGasTargetIntOf inp = (t : ℤ))
    (ht64 : (t : ℤ) < 2 ^ 64)
    (hlt : g < t) :
    CalculateBaseFee inp =
      some (LegacyMaxDec
        (pbf.sub (((pbf.mulInt ((t : ℤ) - (g : ℤ))).quoInt (t : ℤ)).quoInt
          ((inp.params.baseFeeChangeDenominator : ℤ)))) inp.params.minGasPrice) ∧
    inp.params.minGasPrice.i ≤ (LegacyMaxDec
        (pbf.sub (((pbf.mulInt ((t : ℤ) - (g : ℤ))).quoInt (t : ℤ)).quoInt
          ((inp.params.baseFeeChangeDenominator : ℤ)))) inp.params.minGasPrice).i := by
  constructor
  · have hen : inp.params.isBaseFeeEnabled inp.blockHeight = true := isBaseFeeEnabled_of hnb hh.le
    have hne : ¬ inp.blockHeight = inp.params.enableHeight := by omega
    have hu : intIsUint64 ((t : ℤ)) = true := by
      unfold intIsUint64
      simp only [decide_eq_true_eq]
      exact ⟨Int.natCast_nonneg t, ht64⟩
    have hz : ¬ ((t : ℤ) = 0) := by omega
    have hne2 : ¬ (g = t) := hlt.ne
    have hngt : ¬ (t < g) := by omega
    simp only [CalculateBaseFee, hen, hne, hbf, herr, hg, ht, hu, hz, hne2,
      Bool.true_eq_false, if_false, ite_false, if_neg, Int.toNat_natCast, gt_iff_lt, hngt]
  · rw [LegacyMaxDec_i]
    exact le_max_right _ _

/-- Witness for C4: gas wanted 25 against target 50 lowers the example fee by
`875000000 * 25 / 50 / 8 = 54687500`, floored at the zero min gas price. -/
theorem claim_C4_witness :
    (CalculateBaseFee (exampleInput 25 25) =
      some (LegacyMaxDec
        ((LegacyNewDec 875000000).sub ((((LegacyNewDec 875000000).mulInt
          ((50 : ℤ) - (25 : ℤ))).quoInt (50 : ℤ)).quoInt
          (((exampleInput 25 25).params.baseFeeChangeDenominator : ℤ))))
        (exampleInput 25 25).params.minGasPrice) ∧
     (exampleInput 25 25).params.minGasPrice.i ≤ (LegacyMaxDec
        ((LegacyNewDec 875000000).sub ((((LegacyNewDec 875000000).mulInt
          ((50 : ℤ) - (25 : ℤ))).quoInt (50 : ℤ)).quoInt
          (((exampleInput 25 25).params.baseFeeChangeDenominator : ℤ))))
        (exampleInput 25 25).params.minGasPrice).i) :=
  claim_C4 (exampleInput 25 25) (LegacyNewDec 875000000) 50 25 rfl (by decide) rfl
    (by decide) (by decide) (by decide) (by decide) (by decide)

/-- Claim C6: monotone congestion response. Two steady-state congested invocations
sharing parameters, height and consensus max gas, with the first one's
`gasWanted - target` strictly larger, produce results with the first greater than or
equal to the second. -/
theorem claim_C6 (inp1 inp2 : CalcInput) (pbf : LegacyDec) (t g1 g2 : ℕ)
    (hp : inp1.params = inp2.params)
    (hh12 : inp1.blockHeight = inp2.blockHeight)
    (hcons : inp1.consMaxGas = inp2.consMaxGas)
    (hnb : inp1.params.noBaseFee = false)
    (hh : inp1.params.enableHeight < inp1.blockHeight)
    (hbf : inp1.params.baseFee = some pbf)
    (herr1 : (CalculateBlockGasWanted inp1).err = none)
    (herr2 : (CalculateBlockGasWanted inp2).err = none)
    (hg1 : (CalculateBlockGasWanted inp1).gasWanted = g1)
    (hg2 : (CalculateBlockGasWanted inp2).gasWanted = g2)
    (ht : parentGasTargetIntOf inp1 = (t : ℤ))
    (ht64 : (t : ℤ) < 2 ^ 64)
    (htpos : 0 < t)
    (hcong2 : t < g2)
    (hdiff : (g2 : ℤ) - (t : ℤ) < (g1 : ℤ) - (t : ℤ)) :
    ∃ r1 r2, CalculateBaseFee inp1 = some r1 ∧ CalculateBaseFee inp2 = some r2 ∧
      r2.i ≤ r1.i := by
  have hg21 : g2 < g1 := by omega
  have hcong1 : t < g1 := lt_trans hcong2 hg21
  have hnb2 : inp2.params.noBaseFee = false := by rw [← hp]; exact hnb
  have hh2 : inp2.params.enableHeight < inp2.blockHeight := by rw [← hp, ← hh12]; exact hh
  have hbf2 : inp2.params.baseFee = some pbf := by rw [← hp]; exact hbf
  have ht2 : parentGasTargetIntOf inp2 = (t : ℤ) := by
    unfold parentGasTargetIntOf gasLimitOf at ht ⊢
    rw [← hp, ← hcons]
    exact ht
  have e1 := CalculateBaseFee_congested inp1 pbf t g1 hnb hh hbf herr1 hg1 ht ht64 htpos hcong1
  have e2 := CalculateBaseFee_congested inp2 pbf t g2 hnb2 hh2 hbf2 herr2 hg2 ht2 ht64
    htpos hcong2
  rw [← hp] at e2
  refine ⟨_, _, e1, e2, ?_⟩
  show pbf.i + (LegacyMaxDec _ _).i ≤ pbf.i + (LegacyMaxDec _ _).i
  rw [LegacyMaxDec_i, LegacyMaxDec_i]
  apply add_le_add_left
  have hDnn : (0 : ℤ) ≤ ((inp1.params.baseFeeChangeDenominator : ℤ)) := Int.natCast_nonneg _
  have htnn : (0 : ℤ) ≤ ((t : ℤ)) := Int.natCast_nonneg _
  rcases le_or_lt 0 pbf.i with hpos | hneg
  · have hx : pbf.i * ((g2 : ℤ) - (t : ℤ)) ≤ pbf.i * ((g1 : ℤ) - (t : ℤ)) :=
      mul_le_mul_of_nonneg_left hdiff.le hpos
    have hy := tdiv_le_tdiv_of_le htnn hx
    have hq := tdiv_le_tdiv_of_le hDnn hy
    exact max_le_max hq le_rfl
  · have hx1 : pbf.i * ((g1 : ℤ) - (t : ℤ)) ≤ 0 :=
      mul_nonpos_iff.mpr (Or.inr ⟨hneg.le, by omega⟩)
    have hx2 : pbf.i * ((g2 : ℤ) - (t : ℤ)) ≤ 0 :=
      mul_nonpos_iff.mpr (Or.inr ⟨hneg.le, by omega⟩)
    have hq1 : (((pbf.mulInt ((g1 : ℤ) - (t : ℤ))).quoInt ((t : ℤ))).quoInt
        ((inp1.params.baseFeeChangeDenominator : ℤ))).i ≤ 0 :=
      tdiv_nonpos_of_nonpos (tdiv_nonpos_of_nonpos hx1 htnn) hDnn
    have hq2 : (((pbf.mulInt ((g2 : ℤ) - (t : ℤ))).quoInt ((t : ℤ))).quoInt
        ((inp1.params.baseFeeChangeDenominator : ℤ))).i ≤ 0 :=
      tdiv_nonpos_of_nonpos (tdiv_nonpos_of_nonpos hx2 htnn) hDnn
    have hP : (0 : ℤ) < PREC := by decide
    have hOne : LegacyOneDec.i = PREC := rfl
    rw [max_eq_right (by linarith), max_eq_right (by linarith)]

/-- Witness for C6: gas wanted 100 versus 80 against target 50 with the same
parameters gives a first result at least as large as the second. -/
theorem claim_C6_witness :
    ∃ r1 r2, CalculateBaseFee (exampleInput 100 100) = some r1 ∧
      CalculateBaseFee (exampleInput 80 80) = some r2 ∧ r2.i ≤ r1.i :=
  claim_C6 (exampleInput 100 100) (exampleInput 80 80) (LegacyNewDec 875000000) 50 100 80
    rfl rfl rfl rfl (by decide) rfl (by decide) (by decide) (by decide) (by decide)
    (by decide) (by decide) (by decide) (by decide) (by decide)

end FeeMarket
